import Mathlib

/-!
Shallow embedding of the PortfolioSimulation backend, restricted to the parts
the specification's claims are about:

* `src/backend/src/models/portfolio.py` (`Portfolio` and its valuation and
  constraint helpers),
* `src/backend/src/models/transaction.py` (`Holding`, `Transaction`),
* `src/backend/src/models/fee_structure.py` (`FeeStructure.calculate_fee`),
* `src/backend/src/services/order_engine.py` (`OrderEngine.buy` / `sell` and
  the two validators),
* `src/backend/src/services/technical_indicators.py`,
* `src/backend/src/services/advanced_metrics.py` and the legacy Sharpe path of
  `src/backend/src/services/performance_calculator.py`.

Modelling conventions:

* Python `Decimal` / `float` arithmetic is idealized as exact arithmetic over
  `ℚ` (or over `ℝ` for the statistics code that takes square roots); the
  explicit `round(x, n)` calls of the source are kept, as decimal rounding
  (`pyRound`).  Database ids, timestamps, human-readable messages and the
  SQLAlchemy session plumbing (`commit`/`refresh`) are not modelled; a
  portfolio's mutable state is the record below and an engine call returns the
  confirmation together with the post-state.
* The Price Oracle (`PriceLookup.get_price`) is an external collaborator; an
  engine call takes the oracle's answer as an `Option ℚ` argument.
* Python truthiness tests on optional numeric fields (`if not
  self.max_position_size`, `if h.current_price`, ...) treat both `None` and
  `0` as false; `truthy` reproduces that.
-/

namespace PortfolioSim

/-- Python `round(x, d)` idealized on `ℚ`: round to `d` decimal digits. -/
def pyRound (d : ℕ) (x : ℚ) : ℚ := (round (x * 10 ^ d) : ℤ) / 10 ^ d

/-- Truthiness of an optional numeric field: `None` and `0` are falsy. -/
def truthy : Option ℚ → Bool
  | none => false
  | some x => decide (x ≠ 0)

/-- Model of `AssetType` from `models/transaction.py`. -/
inductive AssetType
  | stock
  | crypto
  | bond
  | commodity
deriving DecidableEq

/-- Model of `OrderType` from `models/transaction.py`. -/
inductive OrderType
  | buy
  | sell
deriving DecidableEq

/-- Model of `OrderStatus` from `services/order_engine.py`. -/
inductive OrderStatus
  | success
  | insufficient_cash
  | insufficient_holdings
  | position_size_limit
  | allocation_limit
  | invalid_asset
  | validation_error
deriving DecidableEq

/-- Model of `FeeType` from `models/fee_structure.py`. -/
inductive FeeType
  | flat
  | percent
  | tiered
  | zero
deriving DecidableEq

/-- Model of `FeeStructure` (name/description/id omitted). -/
structure FeeStructure where
  fee_type : FeeType
  fee_amount : ℚ
deriving DecidableEq

/-- Model of `FeeStructure.calculate_fee`. -/
def FeeStructure.calculate_fee (fs : FeeStructure) (transaction_amount : ℚ) : ℚ :=
  match fs.fee_type with
  | .zero => 0
  | .flat => fs.fee_amount
  | .percent => transaction_amount * fs.fee_amount / 100
  | .tiered => transaction_amount * fs.fee_amount / 100

/-- Model of `Holding` from `models/transaction.py` (ids, entry date and dividend
annotations omitted: no claim mentions them). -/
structure Holding where
  asset_type : AssetType
  ticker : String
  quantity : ℚ
  entry_price : ℚ
  current_price : Option ℚ
deriving DecidableEq

/-- Model of `Transaction` from `models/transaction.py` (id and timestamp omitted). -/
structure Transaction where
  asset_type : AssetType
  ticker : String
  order_type : OrderType
  quantity : ℚ
  price : ℚ
  fee : ℚ
  total_cost : ℚ
deriving DecidableEq

/-- Model of `Portfolio` from `models/portfolio.py` (name, status, model name and the
unused `max_allocation_per_asset_class` omitted; `fee_assignments` is the list
of assigned fee structures, in order). -/
structure Portfolio where
  initial_capital : ℚ
  current_cash : ℚ
  max_cash_per_trade : Option ℚ
  max_position_size : Option ℚ
  holdings : List Holding
  transactions : List Transaction
  fee_assignments : List FeeStructure
deriving DecidableEq

/-- One holding's contribution to `Portfolio.total_value`: the generator
`h.quantity * h.current_price for h in self.holdings if h.current_price`
includes a holding only when `current_price` is truthy. -/
def holdingMarketValue (h : Holding) : ℚ :=
  match h.current_price with
  | some c => if c = 0 then 0 else h.quantity * c
  | none => 0

/-- Model of `Portfolio.total_value` (also `Portfolio.nav`). -/
def total_value (p : Portfolio) : ℚ :=
  (p.holdings.map holdingMarketValue).sum + p.current_cash

/-- Model of `Portfolio.can_afford_trade`. -/
def can_afford_trade (p : Portfolio) (trade_amount : ℚ) : Bool :=
  decide (trade_amount ≤ p.current_cash)

/-- Model of `Portfolio.can_place_order`. -/
def can_place_order (p : Portfolio) (order_size : ℚ) : Bool :=
  match p.max_position_size with
  | none => true
  | some m =>
    if m = 0 ∨ total_value p = 0 then true
    else decide ((order_size / total_value p) * 100 ≤ m)

/-- Key match used by the engine's `next(h for h in portfolio.holdings if
h.ticker == ticker and h.asset_type == asset_type)` searches. -/
def matchesKey (ticker : String) (aty : AssetType) (h : Holding) : Bool :=
  decide (h.ticker = ticker ∧ h.asset_type = aty)

/-- First holding matching (ticker, asset type), as Python's `next(..., None)`. -/
def findHolding (l : List Holding) (ticker : String) (aty : AssetType) : Option Holding :=
  l.find? (matchesKey ticker aty)

/-- In-place mutation of the first element satisfying `pm` (Python mutates the
object `next(...)` returned inside the list). -/
def updateFirst {α : Type} (pm : α → Bool) (f : α → α) : List α → List α
  | [] => []
  | x :: xs => if pm x then f x :: xs else x :: updateFirst pm f xs

/-- Model of `list.remove(obj)`: removal of the first element satisfying `pm`. -/
def removeFirst {α : Type} (pm : α → Bool) : List α → List α
  | [] => []
  | x :: xs => if pm x then xs else x :: removeFirst pm xs

/-- Fee-structure resolution at the top of `buy`/`sell`: an explicit argument
wins, else the portfolio's first fee assignment, else none. -/
def resolveFeeStructure (p : Portfolio) (fs : Option FeeStructure) : Option FeeStructure :=
  match fs with
  | some f => some f
  | none => p.fee_assignments.head?

/-- The fee an engine call charges on `transaction_amount` (0 when no fee
structure resolves). -/
def feeOf (p : Portfolio) (fs : Option FeeStructure) (transaction_amount : ℚ) : ℚ :=
  match resolveFeeStructure p fs with
  | some f => f.calculate_fee transaction_amount
  | none => 0

/-- Model of `OrderConfirmation` (timestamp, message and order id omitted). -/
structure OrderConfirmation where
  status : OrderStatus
  ticker : String
  asset_type : AssetType
  order_type : OrderType
  quantity : ℚ
  price : ℚ
  fee : ℚ
  total_cost : ℚ
deriving DecidableEq

/-- Model of `OrderEngine._validate_buy_order`.  The position-size branch fires exactly
when `can_place_order` rejects and `max_position_size` is truthy (in the source
the inner `if portfolio.max_position_size` falls through otherwise). -/
def validate_buy_order (p : Portfolio) (quantity price total_cost : ℚ) : OrderStatus :=
  if ¬ can_afford_trade p total_cost then .insufficient_cash
  else if ¬ can_place_order p (quantity * price) ∧ truthy p.max_position_size then
    .position_size_limit
  else if truthy p.max_cash_per_trade ∧ total_cost > p.max_cash_per_trade.getD 0 then
    .allocation_limit
  else .success

/-- Model of `OrderEngine._validate_sell_order`. -/
def validate_sell_order (p : Portfolio) (ticker : String) (aty : AssetType)
    (quantity : ℚ) : OrderStatus :=
  match findHolding p.holdings ticker aty with
  | none => .insufficient_holdings
  | some h => if h.quantity < quantity then .insufficient_holdings else .success

/-- Model of `OrderEngine.buy`: price resolution, fee and cost computation, validation,
then the atomic mutation (cash debit, holding update-or-create with
volume-weighted entry price, transaction append). -/
def buy (p : Portfolio) (ticker : String) (aty : AssetType) (quantity : ℚ)
    (fee_structure : Option FeeStructure) (oracle_price : Option ℚ) :
    OrderConfirmation × Portfolio :=
  match oracle_price with
  | none =>
    ({ status := .invalid_asset, ticker := ticker, asset_type := aty, order_type := .buy,
       quantity := quantity, price := 0, fee := 0, total_cost := 0 }, p)
  | some price =>
    let transaction_amount := quantity * price
    let fee := feeOf p fee_structure transaction_amount
    let total_cost := transaction_amount + fee
    let v := validate_buy_order p quantity price total_cost
    if v = OrderStatus.success then
      let holdingsAfter :=
        match findHolding p.holdings ticker aty with
        | some _ =>
          updateFirst (matchesKey ticker aty)
            (fun h =>
              let old_value := h.quantity * h.entry_price
              let new_value := quantity * price
              let newQty := h.quantity + quantity
              { h with quantity := newQty,
                       entry_price := (old_value + new_value) / newQty,
                       current_price := some price })
            p.holdings
        | none =>
          p.holdings ++ [{ asset_type := aty, ticker := ticker, quantity := quantity,
                           entry_price := price, current_price := some price }]
      ({ status := .success, ticker := ticker, asset_type := aty, order_type := .buy,
         quantity := quantity, price := price, fee := fee, total_cost := total_cost },
       { p with current_cash := p.current_cash - total_cost,
                holdings := holdingsAfter,
                transactions := p.transactions ++
                  [⟨aty, ticker, .buy, quantity, price, fee, total_cost⟩] })
    else
      ({ status := v, ticker := ticker, asset_type := aty, order_type := .buy,
         quantity := quantity, price := price, fee := fee, total_cost := total_cost }, p)

/-- Model of `OrderEngine.sell`: price resolution, fee and net-proceeds computation,
validation, then the atomic mutation (cash credit, holding decrement with
removal at zero, transaction append).  The `none` inner branch mirrors the
`except` rollback (`next` without default would raise): state unchanged. -/
def sell (p : Portfolio) (ticker : String) (aty : AssetType) (quantity : ℚ)
    (fee_structure : Option FeeStructure) (oracle_price : Option ℚ) :
    OrderConfirmation × Portfolio :=
  match oracle_price with
  | none =>
    ({ status := .invalid_asset, ticker := ticker, asset_type := aty, order_type := .sell,
       quantity := quantity, price := 0, fee := 0, total_cost := 0 }, p)
  | some price =>
    let transaction_amount := quantity * price
    let fee := feeOf p fee_structure transaction_amount
    let net_proceeds := transaction_amount - fee
    let v := validate_sell_order p ticker aty quantity
    if v = OrderStatus.success then
      match findHolding p.holdings ticker aty with
      | some h0 =>
        let holdingsAfter :=
          if h0.quantity - quantity = 0 then removeFirst (matchesKey ticker aty) p.holdings
          else updateFirst (matchesKey ticker aty)
                 (fun h => { h with quantity := h.quantity - quantity }) p.holdings
        ({ status := .success, ticker := ticker, asset_type := aty, order_type := .sell,
           quantity := quantity, price := price, fee := fee, total_cost := net_proceeds },
         { p with current_cash := p.current_cash + net_proceeds,
                  holdings := holdingsAfter,
                  transactions := p.transactions ++
                    [⟨aty, ticker, .sell, quantity, price, fee, net_proceeds⟩] })
      | none =>
        ({ status := .validation_error, ticker := ticker, asset_type := aty,
           order_type := .sell, quantity := quantity, price := price, fee := fee,
           total_cost := net_proceeds }, p)
    else
      ({ status := v, ticker := ticker, asset_type := aty, order_type := .sell,
         quantity := quantity, price := price, fee := fee, total_cost := net_proceeds }, p)

/-! ### Technical Indicator Engine (`services/technical_indicators.py`)

The indicator functions operate on Python float lists; they are idealized over
`ℝ` (Bollinger Bands take a square root).  `None` entries become `none`. -/

/-- Python `round(x, d)` idealized on `ℝ`. -/
noncomputable def pyRoundR (d : ℕ) (x : ℝ) : ℝ := (round (x * 10 ^ d) : ℤ) / 10 ^ d

/-- Model of `TechnicalIndicators.calculate_sma`. -/
noncomputable def calculate_sma (prices : List ℝ) (period : ℕ) : List (Option ℝ) :=
  if prices.length < period then List.replicate prices.length none
  else
    (List.range prices.length).map (fun i =>
      if i < period - 1 then none
      else some (pyRoundR 2 (((prices.drop (i + 1 - period)).take period).sum / (period : ℝ))))

/-- The EMA recurrence loop: each step appends
`round(price*k + prev*(1-k), 2)`. -/
noncomputable def emaScan (k : ℝ) : List ℝ → ℝ → List ℝ
  | [], _ => []
  | x :: xs, prev =>
    let v := pyRoundR 2 (x * k + prev * (1 - k))
    v :: emaScan k xs v

/-- Model of `TechnicalIndicators.calculate_ema`: seeded with the (unrounded) SMA of the
first `period` prices, then the recurrence, padded with leading `none`s. -/
noncomputable def calculate_ema (prices : List ℝ) (period : ℕ) : List (Option ℝ) :=
  if prices.length < period then List.replicate prices.length none
  else
    let k : ℝ := 2 / ((period : ℝ) + 1)
    let sma_value := (prices.take period).sum / (period : ℝ)
    List.replicate (period - 1) none ++ (sma_value :: emaScan k (prices.drop period) sma_value).map some

/-- The Wilder-smoothing loop of `calculate_rsi`: consumes (gain, loss) pairs
past the seed window, updating the running averages. -/
noncomputable def rsiAux (period : ℕ) : List (ℝ × ℝ) → ℝ → ℝ → List (Option ℝ)
  | [], _, _ => []
  | gl :: rest, avg_gain, avg_loss =>
    let ag := (avg_gain * ((period : ℝ) - 1) + gl.1) / (period : ℝ)
    let al := (avg_loss * ((period : ℝ) - 1) + gl.2) / (period : ℝ)
    (if al = 0 then some 100 else some (pyRoundR 2 (100 - 100 / (1 + ag / al)))) ::
      rsiAux period rest ag al

/-- Model of `TechnicalIndicators.calculate_rsi`. -/
noncomputable def calculate_rsi (prices : List ℝ) (period : ℕ) : List (Option ℝ) :=
  if prices.length < period + 1 then List.replicate prices.length none
  else
    let deltas := List.zipWith (fun a b => b - a) prices prices.tail
    let gains := deltas.map (fun d => max d 0)
    let losses := deltas.map (fun d => |min d 0|)
    let avg_gain := (gains.take period).sum / (period : ℝ)
    let avg_loss := (losses.take period).sum / (period : ℝ)
    let first :=
      if avg_loss = 0 then some (100 : ℝ)
      else some (pyRoundR 2 (100 - 100 / (1 + avg_gain / avg_loss)))
    none :: first :: rsiAux period ((gains.drop period).zip (losses.drop period)) avg_gain avg_loss

/-- The dict returned by `calculate_macd`. -/
structure MacdResult where
  macd : List (Option ℝ)
  signal : List (Option ℝ)
  histogram : List (Option ℝ)

/-- Model of `TechnicalIndicators.calculate_macd`. -/
noncomputable def calculate_macd (prices : List ℝ)
    (fast_period slow_period signal_period : ℕ) : MacdResult :=
  let fast_ema := calculate_ema prices fast_period
  let slow_ema := calculate_ema prices slow_period
  let macd_line := List.zipWith (fun a b =>
    match a, b with
    | some x, some y => some (pyRoundR 2 (x - y))
    | _, _ => none) fast_ema slow_ema
  let macd_values_only := macd_line.filterMap id
  let signal_line :=
    if signal_period ≤ macd_values_only.length then
      List.replicate (macd_line.countP (fun x => x.isNone)) none ++
        calculate_ema macd_values_only signal_period
    else List.replicate macd_line.length none
  let histogram := List.zipWith (fun a b =>
    match a, b with
    | some x, some y => some (pyRoundR 2 (x - y))
    | _, _ => none) macd_line signal_line
  ⟨macd_line, signal_line, histogram⟩

/-- The dict returned by `calculate_bollinger_bands`. -/
structure BollingerResult where
  upper : List (Option ℝ)
  middle : List (Option ℝ)
  lower : List (Option ℝ)

/-- Model of `TechnicalIndicators.calculate_bollinger_bands` (population-style variance
around the rounded middle band value). -/
noncomputable def calculate_bollinger_bands (prices : List ℝ) (period : ℕ)
    (std_dev : ℝ) : BollingerResult :=
  if prices.length < period then
    ⟨List.replicate prices.length none, List.replicate prices.length none,
     List.replicate prices.length none⟩
  else
    let middle_band := calculate_sma prices period
    let bands := (List.range prices.length).map (fun i =>
      if i < period - 1 then ((none : Option ℝ), (none : Option ℝ))
      else
        let period_prices := (prices.drop (i + 1 - period)).take period
        let mean := ((middle_band.get? i).getD none).getD 0
        let variance := (period_prices.map (fun x => (x - mean) ^ 2)).sum / (period : ℝ)
        let std := Real.sqrt variance
        (some (pyRoundR 2 (mean + std_dev * std)), some (pyRoundR 2 (mean - std_dev * std))))
    ⟨bands.map Prod.fst, middle_band, bands.map Prod.snd⟩

/-! ### Risk/performance metrics (`services/advanced_metrics.py` and the legacy
Sharpe path of `services/performance_calculator.py`) -/

/-- Running maximum past a seed, as `np.maximum.accumulate` from the second
element on. -/
def rmaux (m : ℚ) : List ℚ → List ℚ
  | [] => []
  | x :: xs => max m x :: rmaux (max m x) xs

/-- Model of `np.maximum.accumulate`. -/
def runningMax : List ℚ → List ℚ
  | [] => []
  | x :: xs => x :: rmaux x xs

/-- Pointwise drawdowns `(nav - running_max) / running_max`. -/
def drawdownList (navs : List ℚ) : List ℚ :=
  List.zipWith (fun x m => (x - m) / m) navs (runningMax navs)

/-- Minimum of a list (`np.min` via the first element; 0 on the empty list,
which the caller never hits). -/
def listMin : List ℚ → ℚ
  | [] => 0
  | x :: xs => xs.foldl min x

/-- Model of `AdvancedMetrics.calculate_max_drawdown`, restricted to the
`'max_drawdown'` field of the returned dict (rounded to 4 decimal digits; the
other fields are the same quantity scaled and rounded differently, plus
peak/trough bookkeeping no claim mentions).  Fewer than 2 NAV points yields the
zeroed dict. -/
def calculate_max_drawdown (nav_values : List ℚ) : ℚ :=
  if nav_values.length < 2 then 0
  else pyRound 4 (listMin (drawdownList nav_values))

/-- Model of `np.mean`. -/
noncomputable def listMeanR (l : List ℝ) : ℝ := l.sum / l.length

/-- Model of `np.var(l, ddof=1)` (sample variance). -/
noncomputable def sampleVar (l : List ℝ) : ℝ :=
  (l.map (fun x => (x - listMeanR l) ^ 2)).sum / ((l.length : ℝ) - 1)

/-- Model of `np.std(l, ddof=1)` (sample standard deviation). -/
noncomputable def sampleStd (l : List ℝ) : ℝ := Real.sqrt (sampleVar l)

/-- Model of `AdvancedMetrics.calculate_sharpe_ratio`. -/
noncomputable def calculate_sharpe_ratio (returns : List ℝ) (risk_free_rate : ℝ)
    (periods_per_year : ℕ) : Option ℝ :=
  if returns.length < 2 then none
  else
    let avg_return := listMeanR returns
    let std_return := sampleStd returns
    if std_return = 0 then none
    else
      let annualized_return := avg_return * (periods_per_year : ℝ)
      let annualized_std := std_return * Real.sqrt (periods_per_year : ℝ)
      some (pyRoundR 2 ((annualized_return - risk_free_rate) / annualized_std))

/-- Model of `np.var(l)` (population variance, numpy's default `ddof=0`). -/
noncomputable def popVar (l : List ℝ) : ℝ :=
  (l.map (fun x => (x - listMeanR l) ^ 2)).sum / l.length

/-- Model of `np.std(l)` (population standard deviation). -/
noncomputable def popStd (l : List ℝ) : ℝ := Real.sqrt (popVar l)

/-- The daily-returns loop of `PerformanceCalculator.calculate_sharpe_ratio`
(lines 93-100): consecutive snapshot NAV pairs, skipping pairs whose previous
NAV is not positive. -/
noncomputable def perfDailyReturns (navs : List ℝ) : List ℝ :=
  (navs.zip navs.tail).filterMap
    (fun ab => if 0 < ab.1 then some ((ab.2 - ab.1) / ab.1) else none)

/-- Model of `PerformanceCalculator.calculate_sharpe_ratio`, with the snapshot query
abstracted to the ordered list of snapshot NAVs.  Note the source returns the
numeric value `0.0` (not `None`) when the standard deviation is zero, and uses
numpy's population `std`. -/
noncomputable def perf_calculate_sharpe_ratio (navs : List ℝ) (risk_free_rate : ℝ)
    (days : ℕ) : Option ℝ :=
  if navs.length < 2 then none
  else
    let daily_returns := perfDailyReturns navs
    if daily_returns.length < 2 then none
    else
      let avg_return := listMeanR daily_returns
      let std_dev := popStd daily_returns
      if std_dev = 0 then some 0
      else
        let annual_return := avg_return * (days : ℝ)
        let annual_volatility := std_dev * Real.sqrt (days : ℝ)
        some (if 0 < annual_volatility then (annual_return - risk_free_rate) / annual_volatility
              else 0)

/-! ### Concrete instances used in counterexamples and witnesses -/

/-- Cash 100, a 50% position-size limit, and an existing 90-unit AAPL position
priced at 10 (NAV 1000). -/
def cpPosSize : Portfolio :=
  ⟨10000, 100, none, some 50, [⟨.stock, "AAPL", 90, 10, some 10⟩], [], []⟩

/-- Cash 10000, a 1% position-size limit, no holdings. -/
def wpPosSize : Portfolio := ⟨10000, 10000, none, some 1, [], [], []⟩

/-- Cash 100 and one holding (quantity 1, entry price 50) with no known market
price. -/
def cpUnpriced : Portfolio :=
  ⟨150, 100, none, none, [⟨.stock, "XOM", 1, 50, none⟩], [], []⟩

/-- Cash 5 and a 1-unit holding worth 1; selling it under a flat fee of 10
drives cash negative. -/
def cpFeeSell : Portfolio :=
  ⟨5, 5, none, none, [⟨.stock, "PENNY", 1, 1, none⟩], [], []⟩

/-- Cash 7900 and a 20-unit AAPL holding at average entry 105 (the scenario of
spec section 8). -/
def wpSellAll : Portfolio :=
  ⟨10000, 7900, none, none, [⟨.stock, "AAPL", 20, 105, some 110⟩], [], []⟩

/-- Fresh portfolio: cash 10000, no constraints, no holdings. -/
def wpTwoBuys : Portfolio := ⟨10000, 10000, none, none, [], [], []⟩

/-- Cash 100 and a 5-unit holding. -/
def wpNegSell : Portfolio :=
  ⟨100, 100, none, none, [⟨.stock, "TKR", 5, 10, none⟩], [], []⟩

/-! ### General lemmas about the engine's list surgery -/

theorem find?_updateFirst {α : Type} (pm : α → Bool) (f : α → α) (l : List α)
    (hf : ∀ x, pm x = true → pm (f x) = true) :
    List.find? pm (updateFirst pm f l) = (List.find? pm l).map f := by
  induction l with
  | nil => rfl
  | cons x xs ih =>
    by_cases hx : pm x = true
    · simp [updateFirst, hx, List.find?_cons_of_pos, hf x hx]
    · have hx' : pm x = false := by simpa using hx
      simp [updateFirst, hx', List.find?_cons_of_neg, ih]

theorem find?_removeFirst_of_countP {α : Type} (pm : α → Bool) (l : List α)
    (hc : l.countP pm ≤ 1) :
    List.find? pm (removeFirst pm l) = none := by
  induction l with
  | nil => rfl
  | cons x xs ih =>
    by_cases hx : pm x = true
    · have h0 : xs.countP pm = 0 := by
        have := List.countP_cons_of_pos pm (a := x) (l := xs) hx
        omega
      simp only [removeFirst, hx, if_true]
      exact List.find?_eq_none.mpr fun a ha =>
        by simpa using List.countP_eq_zero.mp h0 a ha
    · have hx' : pm x = false := by simpa using hx
      have hc' : xs.countP pm ≤ 1 := by
        have := List.countP_cons_of_neg pm (a := x) (l := xs) hx
        omega
      simp [removeFirst, hx', List.find?_cons_of_neg, ih hc']

theorem updateFirst_append_of_none {α : Type} (pm : α → Bool) (f : α → α)
    (l₁ l₂ : List α) (h : List.find? pm l₁ = none) :
    updateFirst pm f (l₁ ++ l₂) = l₁ ++ updateFirst pm f l₂ := by
  induction l₁ with
  | nil => rfl
  | cons x xs ih =>
    have hx : pm x = false := by
      have := List.find?_eq_none.mp h x (List.mem_cons_self x xs)
      simpa using this
    have hxs : List.find? pm xs = none := by
      refine List.find?_eq_none.mpr fun a ha => List.find?_eq_none.mp h a ?_
      exact List.mem_cons_of_mem x ha
    simp [updateFirst, hx, ih hxs]

theorem find?_append_of_none {α : Type} (pm : α → Bool) (l₁ l₂ : List α)
    (h : List.find? pm l₁ = none) :
    List.find? pm (l₁ ++ l₂) = List.find? pm l₂ := by
  induction l₁ with
  | nil => rfl
  | cons x xs ih =>
    have hx : pm x = false := by
      have := List.find?_eq_none.mp h x (List.mem_cons_self x xs)
      simpa using this
    have hxs : List.find? pm xs = none := by
      refine List.find?_eq_none.mpr fun a ha => List.find?_eq_none.mp h a ?_
      exact List.mem_cons_of_mem x ha
    simp [hx, List.find?_cons_of_neg, ih hxs]

/-! ### Engine unfolding lemmas -/

theorem buy_some_status (p : Portfolio) (tk : String) (aty : AssetType) (q : ℚ)
    (fs : Option FeeStructure) (pr : ℚ) :
    (buy p tk aty q fs (some pr)).1.status =
      validate_buy_order p q pr (q * pr + feeOf p fs (q * pr)) := by
  unfold buy
  by_cases hv : validate_buy_order p q pr (q * pr + feeOf p fs (q * pr)) =
      OrderStatus.success
  · simp [hv]
  · simp [hv]

theorem buy_some_success_eq (p : Portfolio) (tk : String) (aty : AssetType) (q : ℚ)
    (fs : Option FeeStructure) (pr : ℚ)
    (h : validate_buy_order p q pr (q * pr + feeOf p fs (q * pr)) = OrderStatus.success) :
    buy p tk aty q fs (some pr) =
      ({ status := .success, ticker := tk, asset_type := aty, order_type := .buy,
         quantity := q, price := pr, fee := feeOf p fs (q * pr),
         total_cost := q * pr + feeOf p fs (q * pr) },
       { p with
          current_cash := p.current_cash - (q * pr + feeOf p fs (q * pr)),
          holdings :=
            match findHolding p.holdings tk aty with
            | some _ =>
              updateFirst (matchesKey tk aty)
                (fun h =>
                  { h with quantity := h.quantity + q,
                           entry_price :=
                             (h.quantity * h.entry_price + q * pr) / (h.quantity + q),
                           current_price := some pr }) p.holdings
            | none => p.holdings ++ [⟨aty, tk, q, pr, some pr⟩],
          transactions := p.transactions ++
            [⟨aty, tk, .buy, q, pr, feeOf p fs (q * pr), q * pr + feeOf p fs (q * pr)⟩] }) := by
  unfold buy
  simp [h]

theorem sell_some_status (p : Portfolio) (tk : String) (aty : AssetType) (q : ℚ)
    (fs : Option FeeStructure) (pr : ℚ) :
    (sell p tk aty q fs (some pr)).1.status = OrderStatus.success ↔
      validate_sell_order p tk aty q = OrderStatus.success := by
  unfold sell
  by_cases hv : validate_sell_order p tk aty q = OrderStatus.success
  · have hfind : ∃ h0, findHolding p.holdings tk aty = some h0 := by
      unfold validate_sell_order at hv
      cases hf : findHolding p.holdings tk aty with
      | none => rw [hf] at hv; exact absurd hv (by simp)
      | some h0 => exact ⟨h0, rfl⟩
    obtain ⟨h0, hf⟩ := hfind
    simp [hv, hf]
  · simp [hv]

theorem sell_some_success_eq (p : Portfolio) (tk : String) (aty : AssetType) (q : ℚ)
    (fs : Option FeeStructure) (pr : ℚ) (h0 : Holding)
    (hf : findHolding p.holdings tk aty = some h0)
    (hq : ¬ h0.quantity < q) :
    sell p tk aty q fs (some pr) =
      ({ status := .success, ticker := tk, asset_type := aty, order_type := .sell,
         quantity := q, price := pr, fee := feeOf p fs (q * pr),
         total_cost := q * pr - feeOf p fs (q * pr) },
       { p with
          current_cash := p.current_cash + (q * pr - feeOf p fs (q * pr)),
          holdings :=
            if h0.quantity - q = 0 then removeFirst (matchesKey tk aty) p.holdings
            else updateFirst (matchesKey tk aty)
                   (fun h => { h with quantity := h.quantity - q }) p.holdings,
          transactions := p.transactions ++
            [⟨aty, tk, .sell, q, pr, feeOf p fs (q * pr), q * pr - feeOf p fs (q * pr)⟩] }) := by
  have hv : validate_sell_order p tk aty q = OrderStatus.success := by
    unfold validate_sell_order
    rw [hf]
    exact if_neg hq
  unfold sell
  simp [hv, hf]

/-! ### Claim theorems -/

/-- C7: when the Price Oracle reports the price unavailable, both `buy` and
`sell` return a confirmation with outcome `invalid_asset` and leave the
portfolio state (cash, holdings, transaction log) completely unchanged. -/
theorem unavailable_price_invalid_asset_no_mutation
    (p : Portfolio) (tk : String) (aty : AssetType) (q : ℚ) (fs : Option FeeStructure) :
    ((buy p tk aty q fs none).1.status = OrderStatus.invalid_asset ∧
      (buy p tk aty q fs none).2 = p) ∧
    ((sell p tk aty q fs none).1.status = OrderStatus.invalid_asset ∧
      (sell p tk aty q fs none).2 = p) :=
  ⟨⟨rfl, rfl⟩, ⟨rfl, rfl⟩⟩

/-- C2 counterexample: a portfolio with cash 100 and a single holding of
quantity 1 at entry price 50 with no known market price has
`total_value` 100, not the 150 the claim's entry-price fallback demands. -/
theorem nav_unpriced_holding_counterexample :
    total_value cpUnpriced = 100 ∧
    cpUnpriced.current_cash + (1 : ℚ) * 50 = 150 ∧
    (100 : ℚ) ≠ 150 := by
  refine ⟨?_, ?_, ?_⟩ <;> norm_num [total_value, holdingMarketValue, cpUnpriced]

/-- C2 (amended): `Portfolio.total_value` skips holdings whose current price is
unknown (`None`) or zero — such a holding contributes 0 to NAV, not
`quantity × entry_price`: adding it to any portfolio leaves NAV unchanged. -/
theorem total_value_skips_unpriced_holding
    (p : Portfolio) (h : Holding)
    (hp : h.current_price = none ∨ h.current_price = some 0) :
    total_value { p with holdings := h :: p.holdings } = total_value p := by
  rcases hp with hp | hp <;> simp [total_value, holdingMarketValue, hp]

/-- Witness for the amended C2 theorem at a concrete portfolio and holding. -/
theorem total_value_skips_unpriced_holding_witness :
    total_value { cpUnpriced with
      holdings := ⟨AssetType.stock, "ZZZ", 7, 3, none⟩ :: cpUnpriced.holdings } =
      total_value cpUnpriced :=
  total_value_skips_unpriced_holding cpUnpriced ⟨AssetType.stock, "ZZZ", 7, 3, none⟩
    (Or.inl rfl)

/-- C1 counterexample: with a 50% position-size limit, NAV 1000 and an existing
90-unit AAPL position priced at 10, buying 1 more unit succeeds (the
incremental notional 10 is 1% of NAV) even though the resulting position is
worth 910, i.e. 91% of NAV — the check is not applied to the total notional of
the new position. -/
theorem position_size_check_counterexample :
    (buy cpPosSize "AAPL" AssetType.stock 1 none (some 10)).1.status =
      OrderStatus.success ∧
    findHolding (buy cpPosSize "AAPL" AssetType.stock 1 none (some 10)).2.holdings
      "AAPL" AssetType.stock = some ⟨AssetType.stock, "AAPL", 91, 10, some 10⟩ ∧
    ((91 : ℚ) * 10 / total_value cpPosSize) * 100 > 50 := by
  refine ⟨?_, ?_, ?_⟩ <;>
    norm_num [buy, cpPosSize, validate_buy_order, can_afford_trade, can_place_order,
      truthy, feeOf, resolveFeeStructure, total_value, holdingMarketValue, findHolding,
      matchesKey, updateFirst, FeeStructure.calculate_fee]

/-- C1 (amended): the position-size check is evaluated against the incremental
trade notional `quantity × price` only.  Provided cash suffices, a buy is
rejected with `position_size_limit` exactly when a nonzero limit is configured,
NAV is nonzero, and `quantity × price / NAV × 100` exceeds the limit — the
pre-existing quantity of the position is not counted. -/
theorem buy_position_size_check_is_incremental
    (p : Portfolio) (tk : String) (aty : AssetType) (q : ℚ) (fs : Option FeeStructure)
    (pr : ℚ) (hcash : q * pr + feeOf p fs (q * pr) ≤ p.current_cash) :
    ((buy p tk aty q fs (some pr)).1.status = OrderStatus.position_size_limit ↔
      ∃ m, p.max_position_size = some m ∧ m ≠ 0 ∧ total_value p ≠ 0 ∧
        (q * pr / total_value p) * 100 > m) := by
  rw [buy_some_status]
  unfold validate_buy_order
  rw [if_neg (by simp [can_afford_trade, hcash])]
  cases hm : p.max_position_size with
  | none =>
    simp only [truthy]
    split_ifs with h1 h2 <;> simp_all
  | some m =>
    by_cases hm0 : m = 0
    · subst hm0
      simp only [truthy, can_place_order, hm]
      split_ifs with h1 h2 <;> simp_all
    · by_cases htv : total_value p = 0
      · simp only [truthy, can_place_order, hm]
        split_ifs with h1 h2 <;> simp_all
      · by_cases hpct : (q * pr / total_value p) * 100 ≤ m
        · simp only [truthy, can_place_order, hm]
          split_ifs with h1 h2 <;> simp_all
        · simp only [truthy, can_place_order, hm]
          split_ifs with h1 h2 <;> simp_all

/-- Witness for the amended C1 theorem: with cash 10000, a 1% limit and no
holdings, buying notional 1000 (10% of NAV) is rejected with
`position_size_limit`. -/
theorem buy_position_size_check_is_incremental_witness :
    (buy wpPosSize "AAPL" AssetType.stock 10 none (some 100)).1.status =
      OrderStatus.position_size_limit :=
  (buy_position_size_check_is_incremental wpPosSize "AAPL" AssetType.stock 10 none 100
      (by norm_num [feeOf, resolveFeeStructure, wpPosSize])).mpr
    ⟨1, rfl, by norm_num,
      by norm_num [total_value, holdingMarketValue, wpPosSize],
      by norm_num [total_value, holdingMarketValue, wpPosSize]⟩

/-- C3 counterexample: a portfolio with non-negative cash 5 and a 1-unit
holding; selling that unit at price 1 under a flat fee of 10 succeeds and
leaves `current_cash = -4 < 0`. -/
theorem sell_fee_exceeds_notional_counterexample :
    cpFeeSell.current_cash = 5 ∧
    (sell cpFeeSell "PENNY" AssetType.stock 1 (some ⟨FeeType.flat, 10⟩)
        (some 1)).1.status = OrderStatus.success ∧
    (sell cpFeeSell "PENNY" AssetType.stock 1 (some ⟨FeeType.flat, 10⟩)
        (some 1)).2.current_cash = -4 ∧
    ¬ (0 : ℚ) ≤ -4 := by
  refine ⟨rfl, ?_, ?_, by norm_num⟩ <;>
    norm_num [sell, cpFeeSell, validate_sell_order, findHolding, matchesKey,
      feeOf, resolveFeeStructure, FeeStructure.calculate_fee, removeFirst]

/-- C3 (amended): cash stays non-negative after any buy (whatever its outcome),
and after a sell whose fee does not exceed the sale notional; a sell with an
unavailable price leaves cash unchanged.  (A sell whose fee exceeds the
notional can drive cash negative, as the counterexample shows.) -/
theorem cash_nonnegative_after_trades :
    (∀ (p : Portfolio) (tk : String) (aty : AssetType) (q : ℚ)
        (fs : Option FeeStructure) (opr : Option ℚ), 0 ≤ p.current_cash →
      0 ≤ ((buy p tk aty q fs opr).2).current_cash) ∧
    (∀ (p : Portfolio) (tk : String) (aty : AssetType) (q : ℚ)
        (fs : Option FeeStructure) (pr : ℚ), 0 ≤ p.current_cash →
      feeOf p fs (q * pr) ≤ q * pr →
      0 ≤ ((sell p tk aty q fs (some pr)).2).current_cash) ∧
    (∀ (p : Portfolio) (tk : String) (aty : AssetType) (q : ℚ)
        (fs : Option FeeStructure),
      ((sell p tk aty q fs none).2).current_cash = p.current_cash) := by
  refine ⟨?_, ?_, fun p tk aty q fs => rfl⟩
  · intro p tk aty q fs opr hc
    cases opr with
    | none => exact hc
    | some pr =>
      by_cases hv : validate_buy_order p q pr (q * pr + feeOf p fs (q * pr)) =
          OrderStatus.success
      · rw [buy_some_success_eq p tk aty q fs pr hv]
        have haff : q * pr + feeOf p fs (q * pr) ≤ p.current_cash := by
          by_contra hna
          unfold validate_buy_order at hv
          rw [if_pos (by simp [can_afford_trade]; exact lt_of_not_le hna)] at hv
          exact absurd hv (by simp)
        simpa using sub_nonneg.mpr haff
      · unfold buy
        simp only [hv, if_false]
        exact hc
  · intro p tk aty q fs pr hc hfee
    by_cases hv : validate_sell_order p tk aty q = OrderStatus.success
    · obtain ⟨h0, hf, hq⟩ : ∃ h0, findHolding p.holdings tk aty = some h0 ∧
          ¬ h0.quantity < q := by
        unfold validate_sell_order at hv
        cases hf : findHolding p.holdings tk aty with
        | none => rw [hf] at hv; exact absurd hv (by simp)
        | some h0 =>
          rw [hf] at hv
          refine ⟨h0, rfl, ?_⟩
          intro hlt
          simp [hlt] at hv
      rw [sell_some_success_eq p tk aty q fs pr h0 hf hq]
      have : 0 ≤ q * pr - feeOf p fs (q * pr) := sub_nonneg.mpr hfee
      simpa using add_nonneg hc this
    · unfold sell
      simp only [hv, if_false]
      exact hc

/-- Witness for the amended C3 theorem: a concrete no-fee buy and sell both
leave cash non-negative, and an unavailable-price sell leaves it unchanged. -/
theorem cash_nonnegative_after_trades_witness :
    0 ≤ ((buy wpTwoBuys "AAPL" AssetType.stock 10 none (some 100)).2).current_cash ∧
    0 ≤ ((sell wpSellAll "AAPL" AssetType.stock 20 none (some 120)).2).current_cash ∧
    ((sell wpSellAll "AAPL" AssetType.stock 20 none none).2).current_cash =
      wpSellAll.current_cash :=
  ⟨cash_nonnegative_after_trades.1 wpTwoBuys "AAPL" AssetType.stock 10 none (some 100)
      (by norm_num [wpTwoBuys]),
   cash_nonnegative_after_trades.2.1 wpSellAll "AAPL" AssetType.stock 20 none 120
      (by norm_num [wpSellAll])
      (by norm_num [feeOf, resolveFeeStructure, wpSellAll]),
   cash_nonnegative_after_trades.2.2 wpSellAll "AAPL" AssetType.stock 20 none⟩

/-- C4: for every successful sell of quantity `q` at resolved price `pr` with
fee `f`, `cash_after = cash_before + q×pr − f` exactly; the holding for
(ticker, asset class) — unique by the data model — decreases in quantity by
exactly `q`, and when its quantity reaches exactly 0 it is removed from the
portfolio rather than retained as a zero row. -/
theorem sell_success_accounting
    (p : Portfolio) (tk : String) (aty : AssetType) (q : ℚ)
    (fs : Option FeeStructure) (pr : ℚ)
    (hu : p.holdings.countP (matchesKey tk aty) ≤ 1)
    (hs : (sell p tk aty q fs (some pr)).1.status = OrderStatus.success) :
    ((sell p tk aty q fs (some pr)).2).current_cash =
      p.current_cash + q * pr - (sell p tk aty q fs (some pr)).1.fee ∧
    ∃ h0, findHolding p.holdings tk aty = some h0 ∧
      (if h0.quantity = q then
        findHolding ((sell p tk aty q fs (some pr)).2).holdings tk aty = none
       else
        ∃ h1, findHolding ((sell p tk aty q fs (some pr)).2).holdings tk aty = some h1 ∧
          h1.quantity = h0.quantity - q) := by
  have hv : validate_sell_order p tk aty q = OrderStatus.success :=
    (sell_some_status p tk aty q fs pr).mp hs
  obtain ⟨h0, hf, hq⟩ : ∃ h0, findHolding p.holdings tk aty = some h0 ∧
      ¬ h0.quantity < q := by
    unfold validate_sell_order at hv
    cases hf : findHolding p.holdings tk aty with
    | none => rw [hf] at hv; exact absurd hv (by simp)
    | some h0 =>
      rw [hf] at hv
      refine ⟨h0, rfl, ?_⟩
      intro hlt
      simp [hlt] at hv
  have e := sell_some_success_eq p tk aty q fs pr h0 hf hq
  refine ⟨?_, h0, hf, ?_⟩
  · rw [e]
    ring
  · by_cases hz : h0.quantity = q
    · rw [if_pos hz, e]
      have hz' : h0.quantity - q = 0 := by rw [hz]; ring
      simp only [hz', if_pos rfl]
      exact find?_removeFirst_of_countP (matchesKey tk aty) p.holdings hu
    · rw [if_neg hz, e]
      have hz' : ¬ h0.quantity - q = 0 := fun hc => hz (by linarith [sub_eq_zero.mp hc])
      simp only [hz', if_neg, ite_false]
      refine ⟨{ h0 with quantity := h0.quantity - q }, ?_, rfl⟩
      show List.find? (matchesKey tk aty) (updateFirst (matchesKey tk aty) _ p.holdings) = _
      rw [find?_updateFirst (matchesKey tk aty) _ p.holdings
        (fun x hx => by simpa [matchesKey] using hx)]
      rw [show List.find? (matchesKey tk aty) p.holdings = some h0 from hf]
      rfl

/-- Witness for C4 at the spec's section-8 scenario: selling the whole 20-unit
AAPL position at price 120 with no fee credits 2400 and removes the holding. -/
theorem sell_success_accounting_witness :
    ((sell wpSellAll "AAPL" AssetType.stock 20 none (some 120)).2).current_cash =
      wpSellAll.current_cash + 20 * 120 -
        (sell wpSellAll "AAPL" AssetType.stock 20 none (some 120)).1.fee ∧
    ∃ h0, findHolding wpSellAll.holdings "AAPL" AssetType.stock = some h0 ∧
      (if h0.quantity = 20 then
        findHolding ((sell wpSellAll "AAPL" AssetType.stock 20 none
          (some 120)).2).holdings "AAPL" AssetType.stock = none
       else
        ∃ h1, findHolding ((sell wpSellAll "AAPL" AssetType.stock 20 none
            (some 120)).2).holdings "AAPL" AssetType.stock = some h1 ∧
          h1.quantity = h0.quantity - 20) :=
  sell_success_accounting wpSellAll "AAPL" AssetType.stock 20 none 120
    (by simp [wpSellAll, matchesKey])
    (by
      rw [sell_some_status]
      norm_num [validate_sell_order, wpSellAll, findHolding, matchesKey])

/-- C6: after two successful buys of the same, previously unheld asset —
`q1` at price `p1`, then `q2` at price `p2`, with no intervening trades — the
holding's quantity is exactly `q1 + q2` and its average entry price is exactly
`(q1×p1 + q2×p2) / (q1 + q2)` (exact fixed-point arithmetic, no drift). -/
theorem avg_entry_price_after_two_buys
    (p : Portfolio) (tk : String) (aty : AssetType) (q1 p1 q2 p2 : ℚ)
    (fs1 fs2 : Option FeeStructure)
    (h0 : findHolding p.holdings tk aty = none)
    (hs1 : (buy p tk aty q1 fs1 (some p1)).1.status = OrderStatus.success)
    (hs2 : (buy (buy p tk aty q1 fs1 (some p1)).2 tk aty q2 fs2 (some p2)).1.status =
      OrderStatus.success) :
    ∃ hh, findHolding
        ((buy (buy p tk aty q1 fs1 (some p1)).2 tk aty q2 fs2 (some p2)).2).holdings
        tk aty = some hh ∧
      hh.quantity = q1 + q2 ∧
      hh.entry_price = (q1 * p1 + q2 * p2) / (q1 + q2) := by
  have hv1 : validate_buy_order p q1 p1 (q1 * p1 + feeOf p fs1 (q1 * p1)) =
      OrderStatus.success := by
    rw [buy_some_status] at hs1; exact hs1
  have e1 := buy_some_success_eq p tk aty q1 fs1 p1 hv1
  have hh1 : ((buy p tk aty q1 fs1 (some p1)).2).holdings =
      p.holdings ++ [⟨aty, tk, q1, p1, some p1⟩] := by
    rw [e1]
    simp [h0]
  have hfind1 : findHolding ((buy p tk aty q1 fs1 (some p1)).2).holdings tk aty =
      some ⟨aty, tk, q1, p1, some p1⟩ := by
    rw [hh1]
    show List.find? _ _ = _
    rw [find?_append_of_none (matchesKey tk aty) p.holdings _ h0]
    simp [matchesKey]
  have hv2 : validate_buy_order (buy p tk aty q1 fs1 (some p1)).2 q2 p2
      (q2 * p2 + feeOf (buy p tk aty q1 fs1 (some p1)).2 fs2 (q2 * p2)) =
      OrderStatus.success := by
    rw [buy_some_status] at hs2; exact hs2
  have e2 := buy_some_success_eq (buy p tk aty q1 fs1 (some p1)).2 tk aty q2 fs2 p2 hv2
  refine ⟨⟨aty, tk, q1 + q2, (q1 * p1 + q2 * p2) / (q1 + q2), some p2⟩, ?_, rfl, rfl⟩
  rw [e2]
  simp only [hfind1]
  show List.find? (matchesKey tk aty) (updateFirst (matchesKey tk aty) _ _) = _
  rw [find?_updateFirst (matchesKey tk aty) _ _
    (fun x hx => by simpa [matchesKey] using hx)]
  rw [show List.find? (matchesKey tk aty)
    ((buy p tk aty q1 fs1 (some p1)).2).holdings = some ⟨aty, tk, q1, p1, some p1⟩
    from hfind1]
  rfl

/-- Witness for C6 at the spec's section-8 scenario: buy 10 at 100, then 10 at
110, ending with quantity 20 at average entry 105. -/
theorem avg_entry_price_after_two_buys_witness :
    ∃ hh, findHolding
        ((buy (buy wpTwoBuys "AAPL" AssetType.stock 10 none (some 100)).2
          "AAPL" AssetType.stock 10 none (some 110)).2).holdings
        "AAPL" AssetType.stock = some hh ∧
      hh.quantity = 10 + 10 ∧
      hh.entry_price = (10 * 100 + 10 * 110) / (10 + 10) :=
  avg_entry_price_after_two_buys wpTwoBuys "AAPL" AssetType.stock 10 100 10 110 none none
    (by simp [wpTwoBuys, findHolding])
    (by
      rw [buy_some_status]
      norm_num [validate_buy_order, wpTwoBuys, can_afford_trade, can_place_order,
        truthy, feeOf, resolveFeeStructure])
    (by
      rw [buy_some_status]
      rw [buy_some_success_eq wpTwoBuys "AAPL" AssetType.stock 10 none 100
        (by norm_num [validate_buy_order, wpTwoBuys, can_afford_trade, can_place_order,
          truthy, feeOf, resolveFeeStructure])]
      norm_num [validate_buy_order, wpTwoBuys, can_afford_trade, can_place_order,
        truthy, feeOf, resolveFeeStructure])

/-- C10: neither `buy` nor `sell` validates that the requested quantity is
positive.  A sell of a negative quantity `q` against an existing holding passes
validation and succeeds, increasing the holding's quantity by `|q|` and
changing cash by `q×price − fee` — a strict cash decrease whenever the fee is
non-negative and the price positive.  Symmetrically, a buy of quantity 0
succeeds (for a portfolio with non-negative cash, non-negative configured
limits and no fee) and records a zero-quantity transaction. -/
theorem no_positive_quantity_validation :
    (∀ (p : Portfolio) (tk : String) (aty : AssetType) (q : ℚ)
        (fs : Option FeeStructure) (pr : ℚ) (h : Holding),
      findHolding p.holdings tk aty = some h → 0 ≤ h.quantity → q < 0 →
      (sell p tk aty q fs (some pr)).1.status = OrderStatus.success ∧
      (∃ h1, findHolding ((sell p tk aty q fs (some pr)).2).holdings tk aty = some h1 ∧
        h1.quantity = h.quantity + |q|) ∧
      ((sell p tk aty q fs (some pr)).2).current_cash =
        p.current_cash + (q * pr - feeOf p fs (q * pr)) ∧
      (0 ≤ feeOf p fs (q * pr) → 0 < pr →
        ((sell p tk aty q fs (some pr)).2).current_cash < p.current_cash)) ∧
    (∀ (p : Portfolio) (tk : String) (aty : AssetType) (pr : ℚ),
      0 ≤ p.current_cash →
      (∀ m, p.max_position_size = some m → 0 ≤ m) →
      (∀ c, p.max_cash_per_trade = some c → 0 ≤ c) →
      p.fee_assignments = [] →
      (buy p tk aty 0 none (some pr)).1.status = OrderStatus.success ∧
      ((buy p tk aty 0 none (some pr)).2).transactions =
        p.transactions ++ [⟨aty, tk, OrderType.buy, 0, pr, 0, 0⟩]) := by
  constructor
  · intro p tk aty q fs pr h hf hq0 hneg
    have hq : ¬ h.quantity < q := not_lt.mpr (le_of_lt (lt_of_lt_of_le hneg hq0))
    have e := sell_some_success_eq p tk aty q fs pr h hf hq
    have hz : ¬ h.quantity - q = 0 := by
      intro hc
      have := sub_eq_zero.mp hc
      exact absurd (this ▸ hneg) (not_lt.mpr hq0)
    refine ⟨by rw [e], ⟨{ h with quantity := h.quantity - q }, ?_, ?_⟩, by rw [e], ?_⟩
    · rw [e]
      simp only [hz, ite_false, if_neg]
      show List.find? (matchesKey tk aty) (updateFirst (matchesKey tk aty) _ p.holdings) = _
      rw [find?_updateFirst (matchesKey tk aty) _ p.holdings
        (fun x hx => by simpa [matchesKey] using hx)]
      rw [show List.find? (matchesKey tk aty) p.holdings = some h from hf]
      rfl
    · show h.quantity - q = h.quantity + |q|
      rw [abs_of_neg hneg]
      ring
    · intro hfee hpr
      rw [e]
      have : q * pr < 0 := mul_neg_of_neg_of_pos hneg hpr
      simp only
      linarith
  · intro p tk aty pr hc hm hmc hfa
    have hfee : ∀ x : ℚ, feeOf p none x = 0 := fun x => by
      simp [feeOf, resolveFeeStructure, hfa]
    have h1 : can_afford_trade p (0 * pr + feeOf p none (0 * pr)) = true := by
      simp only [can_afford_trade, hfee, zero_mul, add_zero, decide_eq_true_eq]
      exact hc
    have hcp : can_place_order p (0 * pr) = true := by
      unfold can_place_order
      cases hmp : p.max_position_size with
      | none => rfl
      | some m =>
        dsimp only
        by_cases hd : m = 0 ∨ total_value p = 0
        · rw [if_pos hd]
        · rw [if_neg hd]
          have hm' : 0 ≤ m := hm m hmp
          have hz : 0 * pr / total_value p * 100 = 0 := by
            rw [zero_mul, zero_div, zero_mul]
          simp only [hz, decide_eq_true_eq]
          exact hm'
    have halloc : ¬ (truthy p.max_cash_per_trade = true ∧
        0 * pr + feeOf p none (0 * pr) > p.max_cash_per_trade.getD 0) := by
      rintro ⟨ht, hgt⟩
      cases hmct : p.max_cash_per_trade with
      | none => rw [hmct] at ht; simp [truthy] at ht
      | some c =>
        have hc' : 0 ≤ c := hmc c hmct
        rw [hmct] at ht hgt
        by_cases hcz : c = 0
        · rw [hcz] at ht
          simp [truthy] at ht
        · rw [hfee, zero_mul, add_zero] at hgt
          simp only [Option.getD_some] at hgt
          exact absurd (lt_of_le_of_lt hc' hgt) (lt_irrefl 0)
    have hv : validate_buy_order p 0 pr (0 * pr + feeOf p none (0 * pr)) =
        OrderStatus.success := by
      unfold validate_buy_order
      rw [if_neg (not_not_intro h1)]
      rw [if_neg (show ¬ (¬ can_place_order p (0 * pr) = true ∧
        truthy p.max_position_size = true) from fun hcon => hcon.1 hcp)]
      rw [if_neg halloc]
    have e := buy_some_success_eq p tk aty 0 none pr hv
    refine ⟨by rw [e], ?_⟩
    rw [e]
    simp [hfee]

/-- Witness for C10: on a portfolio with cash 100 and a 5-unit holding, a sell
of quantity −2 at price 10 succeeds, raises the holding to 7 units and lowers
cash; a buy of quantity 0 succeeds and logs a zero-quantity transaction. -/
theorem no_positive_quantity_validation_witness :
    ((sell wpNegSell "TKR" AssetType.stock (-2) none (some 10)).1.status =
        OrderStatus.success ∧
      (∃ h1, findHolding ((sell wpNegSell "TKR" AssetType.stock (-2) none
          (some 10)).2).holdings "TKR" AssetType.stock = some h1 ∧
        h1.quantity = (5 : ℚ) + |(-2 : ℚ)|) ∧
      ((sell wpNegSell "TKR" AssetType.stock (-2) none (some 10)).2).current_cash <
        wpNegSell.current_cash) ∧
    ((buy wpNegSell "TKR" AssetType.stock 0 none (some 10)).1.status =
        OrderStatus.success ∧
      ((buy wpNegSell "TKR" AssetType.stock 0 none (some 10)).2).transactions =
        wpNegSell.transactions ++ [⟨AssetType.stock, "TKR", OrderType.buy, 0, 10, 0, 0⟩]) := by
  have hsell := no_positive_quantity_validation.1 wpNegSell "TKR" AssetType.stock (-2)
    none 10 ⟨AssetType.stock, "TKR", 5, 10, none⟩
    (by simp [wpNegSell, findHolding, matchesKey]) (by norm_num) (by norm_num)
  have hbuy := no_positive_quantity_validation.2 wpNegSell "TKR" AssetType.stock 10
    (by norm_num [wpNegSell]) (by intro m hm; simp [wpNegSell] at hm)
    (by intro c hc; simp [wpNegSell] at hc) rfl
  exact ⟨⟨hsell.1, hsell.2.1, hsell.2.2.2
      (by norm_num [feeOf, resolveFeeStructure, wpNegSell]) (by norm_num)⟩,
    hbuy⟩

/-! ### Lemmas about decimal rounding and list minima -/

theorem round_le_of_le {x y : ℚ} (h : x ≤ y) : round x ≤ round y := by
  rw [round_eq, round_eq]
  exact Int.floor_mono (by linarith)

theorem pyRound_nonpos (d : ℕ) (x : ℚ) (hx : x ≤ 0) : pyRound d x ≤ 0 := by
  unfold pyRound
  apply div_nonpos_of_nonpos_of_nonneg
  · have h1 : x * 10 ^ d ≤ 0 := by
      have := mul_le_mul_of_nonneg_right hx (by positivity : (0:ℚ) ≤ 10 ^ d)
      simpa using this
    have h2 : round (x * 10 ^ d) ≤ 0 := by
      have := round_le_of_le h1
      simpa using this
    exact_mod_cast h2
  · positivity

theorem pyRound_neg_one_le (d : ℕ) (x : ℚ) (hx : -1 ≤ x) : -1 ≤ pyRound d x := by
  unfold pyRound
  rw [le_div_iff₀ (by positivity : (0:ℚ) < 10 ^ d)]
  have h1 : (-1 : ℚ) * 10 ^ d ≤ x * 10 ^ d :=
    mul_le_mul_of_nonneg_right hx (by positivity)
  have h3 : round ((-1 : ℚ) * 10 ^ d) = -(10 ^ d : ℤ) := by
    have he : ((-1 : ℚ) * 10 ^ d) = ((-(10 ^ d) : ℤ) : ℚ) := by push_cast; ring
    rw [he, round_intCast]
  calc (-1 : ℚ) * 10 ^ d = ((-(10 ^ d) : ℤ) : ℚ) := by push_cast; ring
    _ ≤ (round (x * 10 ^ d) : ℚ) := by exact_mod_cast h3 ▸ round_le_of_le h1

theorem pyRound_zero (d : ℕ) : pyRound d 0 = 0 := by
  unfold pyRound
  simp

theorem foldl_min_mem (xs : List ℚ) (acc : ℚ) : xs.foldl min acc ∈ acc :: xs := by
  induction xs generalizing acc with
  | nil => simp
  | cons y ys ih =>
    rw [List.foldl_cons]
    rcases List.mem_cons.mp (ih (min acc y)) with h | h
    · rw [h]
      rcases min_choice acc y with hm | hm <;> rw [hm] <;> simp
    · exact List.mem_cons_of_mem _ (List.mem_cons_of_mem _ h)

theorem listMin_mem (x : ℚ) (xs : List ℚ) : listMin (x :: xs) ∈ x :: xs :=
  foldl_min_mem xs x

/-! ### Lemmas about the drawdown computation -/

theorem drawdown_tail_bounds (l : List ℚ) (m : ℚ) (hm : 0 < m)
    (hl : ∀ x ∈ l, 0 < x) :
    ∀ d ∈ List.zipWith (fun x p => (x - p) / p) l (rmaux m l), -1 < d ∧ d ≤ 0 := by
  induction l generalizing m with
  | nil => simp
  | cons x xs ih =>
    have hx : 0 < x := hl x (List.mem_cons_self _ _)
    have hmax : 0 < max m x := lt_max_of_lt_right hx
    intro d hd
    rw [show rmaux m (x :: xs) = max m x :: rmaux (max m x) xs from rfl,
      List.zipWith_cons_cons] at hd
    rcases List.mem_cons.mp hd with hd | hd
    · subst hd
      constructor
      · have he : (x - max m x) / max m x = x / max m x - 1 := by
          field_simp
        rw [he]
        have : 0 < x / max m x := div_pos hx hmax
        linarith
      · exact div_nonpos_of_nonpos_of_nonneg
          (sub_nonpos.mpr (le_max_right m x)) hmax.le
    · exact ih (max m x) hmax (fun y hy => hl y (List.mem_cons_of_mem _ hy)) d hd

theorem drawdown_tail_zero_of_chain (l : List ℚ) (m : ℚ)
    (hc : List.Chain' (· ≤ ·) (m :: l)) :
    ∀ d ∈ List.zipWith (fun x p => (x - p) / p) l (rmaux m l), d = 0 := by
  induction l generalizing m with
  | nil => simp
  | cons x xs ih =>
    have hmx : m ≤ x := (List.chain'_cons.mp hc).1
    have hmax : max m x = x := max_eq_right hmx
    intro d hd
    rw [show rmaux m (x :: xs) = max m x :: rmaux (max m x) xs from rfl,
      List.zipWith_cons_cons, hmax] at hd
    rcases List.mem_cons.mp hd with hd | hd
    · rw [hd]
      simp
    · exact ih x (List.chain'_cons.mp hc).2 d hd

/-- C9 (amended): for every NAV sequence of length at least 2 with strictly
positive values, the reported max drawdown lies in `[-100%, 0%]`, and it is 0
whenever the sequence is non-decreasing.  (The converse direction of the
claim's "exactly when" fails: the reported value is rounded to 4 decimal
digits, so a strictly decreasing sequence whose drawdown is smaller than
0.005% also reports 0 — see the counterexample.) -/
theorem max_drawdown_bounds
    (navs : List ℚ) (h2 : 2 ≤ navs.length) (hpos : ∀ x ∈ navs, 0 < x) :
    -1 ≤ calculate_max_drawdown navs ∧ calculate_max_drawdown navs ≤ 0 ∧
    (List.Chain' (· ≤ ·) navs → calculate_max_drawdown navs = 0) := by
  cases navs with
  | nil => simp at h2
  | cons x xs =>
    have hx : 0 < x := hpos x (List.mem_cons_self _ _)
    unfold calculate_max_drawdown
    rw [if_neg (by simp at h2 ⊢; omega)]
    have hdd : drawdownList (x :: xs) =
        ((x - x) / x) :: List.zipWith (fun a p => (a - p) / p) xs (rmaux x xs) := rfl
    have h0 : (x - x) / x = 0 := by simp
    have hball : ∀ d ∈ drawdownList (x :: xs), -1 < d ∧ d ≤ 0 := by
      intro d hd
      rw [hdd] at hd
      rcases List.mem_cons.mp hd with hd | hd
      · rw [hd, h0]
        norm_num
      · exact drawdown_tail_bounds xs x hx
          (fun y hy => hpos y (List.mem_cons_of_mem _ hy)) d hd
    have hminmem : listMin (drawdownList (x :: xs)) ∈ drawdownList (x :: xs) := by
      rw [hdd]
      exact listMin_mem _ _
    obtain ⟨hgt, hle⟩ := hball _ hminmem
    refine ⟨pyRound_neg_one_le 4 _ hgt.le, pyRound_nonpos 4 _ hle, ?_⟩
    intro hchain
    have hz : ∀ d ∈ drawdownList (x :: xs), d = 0 := by
      intro d hd
      rw [hdd] at hd
      rcases List.mem_cons.mp hd with hd | hd
      · rw [hd, h0]
      · exact drawdown_tail_zero_of_chain xs x hchain d hd
    rw [hz _ hminmem]
    exact pyRound_zero 4

/-- Witness for the amended C9 theorem at the spec's section-8 scenario
`[10000, 11000, 10450]` (max drawdown −5%, inside `[-100%, 0%]`). -/
theorem max_drawdown_bounds_witness :
    -1 ≤ calculate_max_drawdown [10000, 11000, 10450] ∧
    calculate_max_drawdown [10000, 11000, 10450] ≤ 0 ∧
    (List.Chain' (· ≤ ·) [(10000 : ℚ), 11000, 10450] →
      calculate_max_drawdown [10000, 11000, 10450] = 0) :=
  max_drawdown_bounds [10000, 11000, 10450] (by norm_num) (by norm_num)

/-- C9 counterexample for the claim's "equals 0 exactly when non-decreasing":
the strictly decreasing NAV sequence `[1, 65535/65536]` of positive values has
true drawdown `-1/65536 ≈ -0.0015%`, which the 4-digit rounding of the
reported `max_drawdown` turns into exactly 0. -/
theorem max_drawdown_zero_on_decreasing_counterexample :
    calculate_max_drawdown [1, 65535 / 65536] = 0 ∧
    ¬ List.Chain' (· ≤ ·) [(1 : ℚ), 65535 / 65536] ∧
    (∀ x ∈ [(1 : ℚ), 65535 / 65536], 0 < x) ∧
    2 ≤ ([(1 : ℚ), 65535 / 65536]).length := by
  refine ⟨?_, ?_, ?_, by norm_num⟩
  · have hl : listMin (drawdownList [1, 65535 / 65536]) = -1 / 65536 := by
      norm_num [drawdownList, runningMax, rmaux, listMin]
    unfold calculate_max_drawdown
    rw [if_neg (by norm_num)]
    rw [hl]
    unfold pyRound
    rw [round_eq]
    norm_num
  · rw [List.chain'_cons]
    norm_num
  · norm_num

/-! ### Length lemmas for the indicator engine -/

theorem emaScan_length (k : ℝ) (l : List ℝ) (prev : ℝ) :
    (emaScan k l prev).length = l.length := by
  induction l generalizing prev with
  | nil => rfl
  | cons x xs ih => simp [emaScan, ih]

theorem calculate_sma_length (prices : List ℝ) (period : ℕ) :
    (calculate_sma prices period).length = prices.length := by
  unfold calculate_sma
  split <;> simp

theorem calculate_ema_length (prices : List ℝ) (period : ℕ) (hp : 1 ≤ period) :
    (calculate_ema prices period).length = prices.length := by
  unfold calculate_ema
  split
  · simp
  · next h =>
    simp only [List.length_append, List.length_replicate, List.length_map,
      List.length_cons, emaScan_length, List.length_drop]
    omega

theorem rsiAux_length (period : ℕ) (l : List (ℝ × ℝ)) (ag al : ℝ) :
    (rsiAux period l ag al).length = l.length := by
  induction l generalizing ag al with
  | nil => rfl
  | cons x xs ih => simp [rsiAux, ih]

theorem calculate_rsi_length (prices : List ℝ) (period : ℕ) :
    (calculate_rsi prices period).length =
      if prices.length < period + 1 then prices.length
      else prices.length - period + 1 := by
  unfold calculate_rsi
  split
  · next h => simp
  · next h =>
    simp only [List.length_cons, rsiAux_length, List.length_zip, List.length_drop,
      List.length_map, List.length_zipWith, List.length_tail]
    omega

theorem filterMap_id_length_add_countP_isNone (l : List (Option ℝ)) :
    (l.filterMap id).length + l.countP (fun x => x.isNone) = l.length := by
  induction l with
  | nil => rfl
  | cons x xs ih =>
    cases x <;> simp [List.countP_cons, List.filterMap_cons] <;> omega

theorem calculate_macd_lengths (prices : List ℝ) (fp sp sgp : ℕ)
    (hfp : 1 ≤ fp) (hsp : 1 ≤ sp) (hsgp : 1 ≤ sgp) :
    (calculate_macd prices fp sp sgp).macd.length = prices.length ∧
    (calculate_macd prices fp sp sgp).signal.length = prices.length ∧
    (calculate_macd prices fp sp sgp).histogram.length = prices.length := by
  unfold calculate_macd
  simp only
  have hm : (List.zipWith (fun a b =>
      match a, b with
      | some x, some y => some (pyRoundR 2 (x - y))
      | _, _ => none) (calculate_ema prices fp) (calculate_ema prices sp)).length =
      prices.length := by
    simp [List.length_zipWith, calculate_ema_length prices fp hfp,
      calculate_ema_length prices sp hsp]
  refine ⟨hm, ?_, ?_⟩ <;> split
  · next h =>
    rw [List.length_append, List.length_replicate,
      calculate_ema_length _ sgp hsgp]
    have := filterMap_id_length_add_countP_isNone (List.zipWith (fun a b =>
      match a, b with
      | some x, some y => some (pyRoundR 2 (x - y))
      | _, _ => none) (calculate_ema prices fp) (calculate_ema prices sp))
    omega
  · next h => simp [hm]
  · next h =>
    rw [List.length_zipWith, hm, List.length_append, List.length_replicate,
      calculate_ema_length _ sgp hsgp]
    have := filterMap_id_length_add_countP_isNone (List.zipWith (fun a b =>
      match a, b with
      | some x, some y => some (pyRoundR 2 (x - y))
      | _, _ => none) (calculate_ema prices fp) (calculate_ema prices sp))
    omega
  · next h => simp [hm, List.length_zipWith]

theorem calculate_bollinger_bands_lengths (prices : List ℝ) (period : ℕ) (sd : ℝ) :
    (calculate_bollinger_bands prices period sd).upper.length = prices.length ∧
    (calculate_bollinger_bands prices period sd).middle.length = prices.length ∧
    (calculate_bollinger_bands prices period sd).lower.length = prices.length := by
  unfold calculate_bollinger_bands
  split
  · exact ⟨by simp, by simp, by simp⟩
  · exact ⟨by simp, calculate_sma_length prices period, by simp⟩

/-- C5 (amended): SMA, EMA, MACD (all three output series) and Bollinger Bands
(all three bands) each return a sequence of exactly the input length `n`; RSI,
however, returns `n` undefined entries when `n < period + 1` and otherwise only
`n − period + 1` entries (one leading undefined entry followed by values) —
not `n` values as the claim states.  (Periods are required positive; a zero
period raises `ZeroDivisionError` in the source.) -/
theorem indicator_output_lengths (prices : List ℝ) (p1 p2 p3 fp sp sgp bp : ℕ)
    (k : ℝ) (hp2 : 1 ≤ p2) (hfp : 1 ≤ fp) (hsp : 1 ≤ sp) (hsgp : 1 ≤ sgp) :
    (calculate_sma prices p1).length = prices.length ∧
    (calculate_ema prices p2).length = prices.length ∧
    (calculate_macd prices fp sp sgp).macd.length = prices.length ∧
    (calculate_macd prices fp sp sgp).signal.length = prices.length ∧
    (calculate_macd prices fp sp sgp).histogram.length = prices.length ∧
    (calculate_bollinger_bands prices bp k).upper.length = prices.length ∧
    (calculate_bollinger_bands prices bp k).middle.length = prices.length ∧
    (calculate_bollinger_bands prices bp k).lower.length = prices.length ∧
    (calculate_rsi prices p3).length =
      (if prices.length < p3 + 1 then prices.length
       else prices.length - p3 + 1) :=
  ⟨calculate_sma_length prices p1, calculate_ema_length prices p2 hp2,
   (calculate_macd_lengths prices fp sp sgp hfp hsp hsgp).1,
   (calculate_macd_lengths prices fp sp sgp hfp hsp hsgp).2.1,
   (calculate_macd_lengths prices fp sp sgp hfp hsp hsgp).2.2,
   (calculate_bollinger_bands_lengths prices bp k).1,
   (calculate_bollinger_bands_lengths prices bp k).2.1,
   (calculate_bollinger_bands_lengths prices bp k).2.2,
   calculate_rsi_length prices p3⟩

/-- Witness for the amended C5 theorem at the 25-price series `1..25` with the
source's default periods (SMA 20, EMA 12, RSI 14, MACD 12/26/9, Bollinger
20/2): every indicator except RSI has output length 25; RSI has
`25 − 14 + 1 = 12`. -/
theorem indicator_output_lengths_witness :
    (calculate_sma (List.range 25 |>.map (fun i => (i : ℝ) + 1)) 20).length = 25 ∧
    (calculate_ema (List.range 25 |>.map (fun i => (i : ℝ) + 1)) 12).length = 25 ∧
    (calculate_macd (List.range 25 |>.map (fun i => (i : ℝ) + 1)) 12 26 9).macd.length = 25 ∧
    (calculate_macd (List.range 25 |>.map (fun i => (i : ℝ) + 1)) 12 26 9).signal.length = 25 ∧
    (calculate_macd (List.range 25 |>.map (fun i => (i : ℝ) + 1)) 12 26 9).histogram.length = 25 ∧
    (calculate_bollinger_bands (List.range 25 |>.map (fun i => (i : ℝ) + 1)) 20 2).upper.length = 25 ∧
    (calculate_bollinger_bands (List.range 25 |>.map (fun i => (i : ℝ) + 1)) 20 2).middle.length = 25 ∧
    (calculate_bollinger_bands (List.range 25 |>.map (fun i => (i : ℝ) + 1)) 20 2).lower.length = 25 ∧
    (calculate_rsi (List.range 25 |>.map (fun i => (i : ℝ) + 1)) 14).length =
      (if (List.range 25 |>.map (fun i => (i : ℝ) + 1)).length < 14 + 1
       then (List.range 25 |>.map (fun i => (i : ℝ) + 1)).length
       else (List.range 25 |>.map (fun i => (i : ℝ) + 1)).length - 14 + 1) := by
  have h := indicator_output_lengths (List.range 25 |>.map (fun i => (i : ℝ) + 1))
    20 12 14 12 26 9 20 2 (by decide) (by decide) (by decide) (by decide)
  simpa using h

/-- C5 counterexample: RSI with period 2 on the 3-price series `[1, 2, 3]`
(which satisfies `n ≥ period + 1`) returns 2 values, not `n = 3`. -/
theorem rsi_output_length_counterexample :
    (calculate_rsi [1, 2, 3] 2).length = 2 ∧
    ¬ ([(1 : ℝ), 2, 3].length < 2 + 1) ∧
    (2 : ℕ) ≠ 3 := by
  refine ⟨?_, by norm_num, by norm_num⟩
  rfl

/-- C8 (amended, for `AdvancedMetrics.calculate_sharpe_ratio`): the advanced
Sharpe returns the insufficient-data result `none` exactly when the returns
series has fewer than 2 elements or its sample variance (equivalently, sample
standard deviation) is 0; otherwise it returns
`(mean(r)×P − rf) / (stddev(r, sample)×√P)`, rounded to 2 decimal digits.
(The legacy `PerformanceCalculator` path violates the claim: it returns the
numeric value 0.0 when the standard deviation is 0 — see the
counterexample.) -/
theorem sharpe_ratio_insufficient_data
    (returns : List ℝ) (rf : ℝ) (P : ℕ) :
    (calculate_sharpe_ratio returns rf P = none ↔
      returns.length < 2 ∨ sampleVar returns = 0) ∧
    (2 ≤ returns.length → sampleVar returns ≠ 0 →
      calculate_sharpe_ratio returns rf P =
        some (pyRoundR 2 ((listMeanR returns * P - rf) /
          (sampleStd returns * Real.sqrt P)))) := by
  by_cases hlen : returns.length < 2
  · refine ⟨⟨fun _ => Or.inl hlen, fun _ => ?_⟩, fun h2 _ => absurd hlen (by omega)⟩
    unfold calculate_sharpe_ratio
    rw [if_pos hlen]
  · have hn2 : (2 : ℝ) ≤ returns.length := by
      have : 2 ≤ returns.length := by omega
      exact_mod_cast this
    have hvar_nonneg : 0 ≤ sampleVar returns := by
      unfold sampleVar
      apply div_nonneg
      · apply List.sum_nonneg
        intro x hx
        obtain ⟨y, _, rfl⟩ := List.mem_map.mp hx
        positivity
      · linarith
    have hstd_iff : sampleStd returns = 0 ↔ sampleVar returns = 0 := by
      unfold sampleStd
      exact Real.sqrt_eq_zero hvar_nonneg
    constructor
    · simp only [calculate_sharpe_ratio]
      rw [if_neg hlen]
      by_cases hs : sampleStd returns = 0
      · rw [if_pos hs]
        simp [hlen, hstd_iff.mp hs]
      · rw [if_neg hs]
        simp only [Option.some_ne_none, false_iff, not_or]
        exact ⟨hlen, fun hv => hs (hstd_iff.mpr hv)⟩
    · intro _ hv
      have hs : sampleStd returns ≠ 0 := fun h => hv (hstd_iff.mp h)
      simp only [calculate_sharpe_ratio]
      rw [if_neg hlen, if_neg hs]

/-- Witness for the amended C8 theorem at returns `[0, 1/10]` (sample variance
`1/200 ≠ 0`): the Sharpe value is defined and equals the rounded formula. -/
theorem sharpe_ratio_insufficient_data_witness :
    calculate_sharpe_ratio [0, 1 / 10] 0.04 252 =
      some (pyRoundR 2 ((listMeanR [(0 : ℝ), 1 / 10] * ((252 : ℕ) : ℝ) - 0.04) /
        (sampleStd [(0 : ℝ), 1 / 10] * Real.sqrt ((252 : ℕ) : ℝ)))) :=
  (sharpe_ratio_insufficient_data [0, 1 / 10] 0.04 252).2 (by norm_num)
    (by norm_num [sampleVar, listMeanR])

/-- C8 counterexample: on the snapshot NAVs `[100, 110, 121]` the derived
returns are `[1/10, 1/10]` with standard deviation 0, and the legacy
`PerformanceCalculator.calculate_sharpe_ratio` returns the numeric value
`0.0` — not the undefined / insufficient-data result the claim requires. -/
theorem perf_sharpe_zero_std_counterexample :
    perfDailyReturns [(100 : ℝ), 110, 121] = [1 / 10, 1 / 10] ∧
    popStd (perfDailyReturns [(100 : ℝ), 110, 121]) = 0 ∧
    perf_calculate_sharpe_ratio [(100 : ℝ), 110, 121] 0.02 252 = some 0 := by
  have hr : perfDailyReturns [(100 : ℝ), 110, 121] = [1 / 10, 1 / 10] := by
    norm_num [perfDailyReturns, List.zip_cons_cons, List.filterMap_cons]
  have hvar : popVar [(1 : ℝ) / 10, 1 / 10] = 0 := by
    have hm : listMeanR [(1 : ℝ) / 10, 1 / 10] = 1 / 10 := by
      norm_num [listMeanR]
    norm_num [popVar, hm]
  have hstd : popStd [(1 : ℝ) / 10, 1 / 10] = 0 := by
    unfold popStd
    rw [hvar, Real.sqrt_zero]
  refine ⟨hr, by rw [hr]; exact hstd, ?_⟩
  simp only [perf_calculate_sharpe_ratio, hr]
  rw [if_neg (by norm_num), if_neg (by norm_num), if_pos hstd]

end PortfolioSim
